import Mathlib

/-!
Verification development for the ganache-core transaction intake, pool,
mining and execution/receipt pipeline, together with the WebSocket adapter
and wallet-option defaults that are present in the source tree.

The WebSocket adapter (`WebSocket.initialize`) and the wallet options
(`randomAlphaNumericString`, `WalletOptions.seed`) are embedded directly from
the TypeScript source.  The core pipeline components (validator, pool,
execution pipeline, gas estimator, notifier) are not part of the source
fragment — only their tests are — so they are modelled from the
specification, as marked in each doc comment.
-/

namespace Ganache

/-! ## Bytes and hex encoding -/

/-- A byte sequence; each entry is a byte value `< 256` where it matters. -/
abbrev Bytes := List Nat

/-- Lower-case hex digit for a value `< 16`. -/
def hexDigit (n : Nat) : Char :=
  if n < 10 then Char.ofNat (48 + n) else Char.ofNat (87 + n)

/-- Two-digit lower-case hex encoding of one byte (values taken mod 256). -/
def byteToHex (b : Nat) : List Char :=
  [hexDigit (b % 256 / 16), hexDigit (b % 16)]

/-- Hex encoding of a byte sequence with the `0x` prefix, as produced for RPC
responses. -/
def bytesToHex (bs : Bytes) : String :=
  ⟨'0' :: 'x' :: bs.flatMap byteToHex⟩

/-! ## C10: the WebSocket adapter's message dispatch (from
`src/packages/core/src/uws/websocket.ts`, `WebSocket.initialize`). -/

/-- The shapes an incoming `ws` message can take, as distinguished by the
adapter: a JS string (held as its sequence of `charCodeAt` values), a single
`Buffer`, an array of `Buffer`s, or any other value (already an
`ArrayBuffer`-like, held as bytes). -/
inductive WsMessage
  | str (codes : List Nat)
  | buffer (bytes : Bytes)
  | bufferArray (buffers : List Bytes)
  | other (bytes : Bytes)

/-- What the adapter hands to `behavior.message`: the `ArrayBuffer` contents
and the `isBinary` flag. -/
structure Delivery where
  data : Bytes
  isBinary : Bool
deriving DecidableEq

/-- The message branch of `WebSocket.initialize`: when `behavior.message` is a
function, a string is copied `charCodeAt`-by-`charCodeAt` into a fresh
`ArrayBuffer` (each code truncated to a byte by the `Uint8Array` store) and
delivered with `isBinary = false`; a `Buffer` is delivered as its underlying
bytes with `isBinary = true`; an array of buffers is silently dropped
(`// array of buffers. do nothing?`); anything else is passed through with
`isBinary = true`.  `none` means `behavior.message` was never invoked. -/
def onMessage (hasHandler : Bool) (m : WsMessage) : Option Delivery :=
  if hasHandler then
    match m with
    | .str codes => some ⟨codes.map (fun c => c % 256), false⟩
    | .buffer bytes => some ⟨bytes, true⟩
    | .bufferArray _ => none
    | .other bytes => some ⟨bytes, true⟩
  else none

/-! ## C9: wallet seed default (from the wallet options in
`src/packages/core/src/uws/websocket.ts`: `randomAlphaNumericString` and
`WalletOptions.seed.default`). -/

/-- The 62-character alphabet
`"ABCDEFGHIJKLMNOPQRSTUVWXYZabcdefghijklmnopqrstuvwxyz0123456789"`. -/
def alphabet : List Char :=
  "ABCDEFGHIJKLMNOPQRSTUVWXYZabcdefghijklmnopqrstuvwxyz0123456789".data

/-- One draw of the source's `(rng() * alphabetLength) | 0`.  The JS `rng`
yields a binary64 in `[0, 1)`; such a value produced by `alea` is an exact
dyadic rational `num / 2 ^ 53`, so the truncating index computation is the
natural-number floor `num * |alphabet| / 2 ^ 53`. -/
def rngIndex (num : Nat) : Nat :=
  num * alphabet.length / 2 ^ 53

/-- `randomAlphaNumericString(length, rng)`: builds the string one character at
a time, indexing `alphabet` by `(rng() * alphabetLength) | 0`.  The `getD`
default corresponds to the out-of-range JS access and is unreachable while the
rng keeps its `[0, 1)` contract. -/
def randomAlphaNumericString (len : Nat) (rng : Nat → Nat) : List Char :=
  (List.range len).map (fun i => alphabet.getD (rngIndex (rng i)) 'A')

/-- `WalletOptions.seed.default`, i.e. `randomAlphaNumericString(10, alea())`:
the seed used when none is configured. -/
def seedDefault (rng : Nat → Nat) : List Char :=
  randomAlphaNumericString 10 rng

/-! ## C3: revert-reason decoding.

Modelled from the spec: the execution pipeline's revert handling (§4.4 step 3)
and the error surfaced when `vmErrorsOnRPCResponse` is set (§7).  The decoder
itself is not part of the source fragment. -/

/-- The 4-byte `Error(string)` selector `0x08c379a0`. -/
def errorSelector : Bytes := [0x08, 0xc3, 0x79, 0xa0]

/-- Big-endian interpretation of a byte sequence as a natural number. -/
def beToNat (bs : Bytes) : Nat :=
  bs.foldl (fun acc b => acc * 256 + b) 0

/-- Modelled from the spec: attempt to decode a revert payload as a standard
ABI `Error(string)` encoding — the 4-byte selector, a 32-byte offset, and at
that offset a 32-byte length followed by that many string bytes.  Any
malformed or truncated payload yields `none`; the decoder is a total function
and never throws. -/
def decodeRevertReason (payload : Bytes) : Option Bytes :=
  if payload.take 4 = errorSelector then
    let body := payload.drop 4
    if 32 ≤ body.length then
      let off := beToNat (body.take 32)
      let rest := body.drop off
      if 32 ≤ rest.length then
        let len := beToNat (rest.take 32)
        let strBytes := (rest.drop 32).take len
        if strBytes.length = len then some strBytes else none
      else none
    else none
  else none

/-- The error object surfaced for a revert when `vmErrorsOnRPCResponse` is
set: JSON-RPC code, optional decoded reason, outer message, and the raw
payload re-encoded as hex. -/
structure RevertError where
  code : Int
  reason : Option Bytes
  message : String
  result : String
deriving DecidableEq

/-- Modelled from the spec: build the RPC error for a revert.  The code is
`-32000`; the reason is whatever `decodeRevertReason` produced (or `none`);
the outer message is the literal `"revert"`, with the decoded reason appended
when one exists; the raw bytes are preserved verbatim as hex in `result`. -/
def mkRevertError (raw : Bytes) : RevertError :=
  let reason := decodeRevertReason raw
  { code := -32000
    reason := reason
    message :=
      match reason with
      | some s => "revert " ++ String.mk (s.map Char.ofNat)
      | none => "revert"
    result := bytesToHex raw }

/-- The payload from the badly-encoded-revert test: the `Error(string)`
selector followed by 32 bytes `ff … ff c0`, whose declared string offset is
astronomically larger than the payload. -/
def badRevertPayload : Bytes :=
  errorSelector ++ List.replicate 31 0xff ++ [0xc0]

/-! ## C4: upfront-cost validation.

Modelled from the spec: validator rule 4 (§4.2) over the closed transaction
format variant (§3, §9). -/

/-- The closed transaction format variant. -/
inductive TxType
  | legacy
  | accessList
  | dynamicFee
deriving DecidableEq

/-- The fee and cost fields of a submitted transaction that the upfront-cost
check reads. -/
structure Tx where
  txType : TxType
  gasLimit : Nat
  gasPrice : Nat
  maxFeePerGas : Nat
  value : Nat
deriving DecidableEq

/-- Modelled from the spec: the effective per-gas price used for the upfront
cost — `gasPrice` for Legacy and AccessList, `maxFeePerGas` for DynamicFee,
matched exhaustively over the closed variant. -/
def effectiveGasPrice (tx : Tx) : Nat :=
  match tx.txType with
  | .legacy => tx.gasPrice
  | .accessList => tx.gasPrice
  | .dynamicFee => tx.maxFeePerGas

/-- Upfront cost = gasLimit × (effective per-gas price) + value. -/
def upfrontCost (tx : Tx) : Nat :=
  tx.gasLimit * effectiveGasPrice tx + tx.value

/-- The insufficient-funds message, embedding the computed upfront cost, the
sender's address and balance, and the active hardfork name, in the shape the
tests match against. -/
def insufficientFundsMessage (upfront balance : Nat) (sender hardfork : String) : String :=
  "VM Exception while processing transaction: sender doesn't have enough funds to send tx. The upfront cost is: "
    ++ toString upfront
    ++ " and the sender's account (" ++ sender ++ ") only has: "
    ++ toString balance
    ++ " (vm hf=" ++ hardfork ++ " -> block -> tx)"

/-- Validation errors surfaced synchronously to the submitter (§7). -/
inductive ValidationError
  | nonceTooLow
  | insufficientFunds (msg : String)
  | unsupportedTransactionType
  | gasLimitExceeded
  | authenticationRequired
  | replacementUnderpriced
deriving DecidableEq

/-- Modelled from the spec: validator rule 4 — the upfront cost must not
exceed the sender's balance, else `InsufficientFunds` with the diagnostic
message. -/
def checkUpfrontCost (tx : Tx) (balance : Nat) (sender hardfork : String) :
    Except ValidationError Unit :=
  if balance < upfrontCost tx then
    .error (.insufficientFunds
      (insufficientFundsMessage (upfrontCost tx) balance sender hardfork))
  else .ok ()

/-! ## C1: gas estimator.

Modelled from the spec: the gas estimator (§4.6) performs a bounded binary
search over `[intrinsic gas, block gas limit]`, probing the execution pipeline
in a non-committing mode.  The external execution capability is deterministic
(§6); for a fixed pre-state and transaction it is characterised by the minimal
gas limit `required` at which execution succeeds: a probe with a gas limit
below it runs out of gas, a probe at or above it succeeds consuming exactly
`required` gas. -/

/-- Modelled from the spec: the deterministic execution capability for one
transaction against one fixed pre-state, abstracted by the minimal sufficient
gas limit. -/
structure ExecModel where
  required : Nat

/-- A non-committing estimation probe at a given gas limit "succeeds" iff the
outcome is Success, i.e. the limit covers the required gas. -/
def probeSucceeds (m : ExecModel) (gasLimit : Nat) : Bool :=
  m.required ≤ gasLimit

/-- Execution outcome classification of a committed transaction. -/
inductive Status
  | success
  | failure
deriving DecidableEq

/-- The execution-level receipt data for one transaction run at a gas limit:
a sufficient limit succeeds using `required` gas; an insufficient one runs out
of gas, consuming the whole limit. -/
structure ExecReceipt where
  status : Status
  gasUsed : Nat
deriving DecidableEq

/-- Modelled from the spec: run the transaction at a gas limit through the
execution pipeline. -/
def execTx (m : ExecModel) (gasLimit : Nat) : ExecReceipt :=
  if m.required ≤ gasLimit then ⟨.success, m.required⟩ else ⟨.failure, gasLimit⟩

/-- The binary-search loop of the estimator: maintain `[lo, hi]` with the
invariant that `hi` succeeds, and converge on the least successful limit. -/
def estimateSearch (m : ExecModel) (lo hi : Nat) : Nat :=
  if h : hi ≤ lo then lo
  else
    let mid := (lo + hi) / 2
    if probeSucceeds m mid then estimateSearch m lo mid
    else estimateSearch m (mid + 1) hi
termination_by hi - lo
decreasing_by
  · omega
  · omega

/-- Modelled from the spec: `estimate(tx)` — binary search over
`[intrinsic, blockLimit]`; if no probe in range succeeds the estimator fails
with `GasRequiredExceedsAllowance` (`none`). -/
def estimate (m : ExecModel) (intrinsic blockLimit : Nat) : Option Nat :=
  if probeSucceeds m blockLimit then
    some (estimateSearch m intrinsic blockLimit)
  else none

/-- The `miner.defaultTransactionGasLimit` option: a fixed value or
`"estimate"`. -/
inductive DefaultTxGasLimit
  | fixed (n : Nat)
  | estimateMode
deriving DecidableEq

/-- Modelled from the spec: the gas limit assigned to a submitted transaction
— the explicit `gas` field when present, otherwise the configured default,
which in `"estimate"` mode is exactly the value `eth_estimateGas` returns. -/
def assignGasLimit (cfg : DefaultTxGasLimit) (m : ExecModel)
    (intrinsic blockLimit : Nat) (explicitGas : Option Nat) : Option Nat :=
  match explicitGas with
  | some g => some g
  | none =>
    match cfg with
    | .fixed n => some n
    | .estimateMode => estimate m intrinsic blockLimit

/-! ## C2: receipts for contract-creation transactions.

Modelled from the spec: execution pipeline steps 1–4 (§4.4) — the contract
address of a creation transaction is computed from (sender, pre-transaction
nonce) before execution, and survives any failure. -/

/-- A 20-byte address. -/
abbrev Address := List Nat

/-- Modelled from the spec: the deterministic contract-address derivation from
the sender and the sender's pre-transaction nonce.  The concrete digest
(RLP + keccak) lives in the external execution layer; it is modelled as a
deterministic 20-byte digest of the two inputs. -/
def createContractAddress (sender : Address) (nonce : Nat) : Address :=
  (List.range 20).map (fun i => (sender.getD i 0 + nonce + i) % 256)

/-- The outcomes the external execution capability can return (§4.4 step 2). -/
inductive Outcome
  | success (returnData : Bytes) (gasUsed : Nat)
  | revert (raw : Bytes) (gasUsed : Nat)
  | outOfGas
  | invalid
deriving DecidableEq

/-- A transaction receipt as surfaced over RPC. -/
structure Receipt where
  status : Status
  toField : Option Address
  contractAddress : Option Address
  gasUsed : Nat
deriving DecidableEq

/-- Modelled from the spec: build the receipt for one applied transaction.
For a creation transaction (`toField = none`) the contract address is
precomputed from (sender, pre-nonce) before the outcome is examined, and is
kept in the receipt whatever the outcome; `to` stays `null`.  OutOfGas and
Invalid consume the whole gas limit and give status Failure. -/
def buildReceipt (sender : Address) (preNonce : Nat) (toField : Option Address)
    (gasLimit : Nat) (outcome : Outcome) : Receipt :=
  let ca : Option Address :=
    match toField with
    | none => some (createContractAddress sender preNonce)
    | some _ => none
  match outcome with
  | .success _ g => ⟨.success, toField, ca, g⟩
  | .revert _ g => ⟨.failure, toField, ca, g⟩
  | .outOfGas => ⟨.failure, toField, ca, gasLimit⟩
  | .invalid => ⟨.failure, toField, ca, gasLimit⟩

/-! ## C5 and C7: account registry and the commit step.

Modelled from the spec: the Account Registry (§4.1), executable-nonce
acceptance (§8, §3 pool entry set) and the commit step of the execution
pipeline (§4.4 step 5). -/

/-- Registry entry: balance and nonce of one account. -/
structure AccountState where
  balance : Nat
  nonce : Nat
deriving DecidableEq

/-- The account registry, as a total map from addresses to their state. -/
def Registry := Address → AccountState

/-- Point update of the registry. -/
def updateReg (reg : Registry) (a : Address) (f : AccountState → AccountState) :
    Registry :=
  fun x => if x = a then f (reg x) else reg x

/-- A pooled value-transfer transaction as the commit step sees it: sender,
recipient, nonce, value, and the total gas fee (gas used × effective price). -/
structure PoolTx where
  sender : Address
  recipient : Address
  nonce : Nat
  value : Nat
  gasFee : Nat
deriving DecidableEq

/-- Modelled from the spec: acceptance of a transaction into the executable
set — its nonce must equal the sender's current account nonce (§8, glossary
"executable transaction"). -/
def acceptsExecutable (reg : Registry) (tx : PoolTx) : Bool :=
  tx.nonce = (reg tx.sender).nonce

/-- Modelled from the spec: the commit step (§4.4 step 5) — increment the
sender's nonce, debit gas fee and value from the sender, credit the value to
the recipient. -/
def commitTx (reg : Registry) (tx : PoolTx) : Registry :=
  let reg1 := updateReg reg tx.sender
    (fun a => ⟨a.balance - (tx.value + tx.gasFee), a.nonce + 1⟩)
  updateReg reg1 tx.recipient (fun a => ⟨a.balance + tx.value, a.nonce⟩)

/-- Modelled from the spec: sealing a block applies its transactions in
order (§4.5). -/
def sealBlockTxs (reg : Registry) (txs : List PoolTx) : Registry :=
  txs.foldl commitTx reg

/-! ## C6: authentication and unlocking.

Modelled from the spec: validator rule 1 (§4.2) and the unlocked-account
configuration by address or index (§6, §8). -/

/-- A wallet account as the authentication check sees it: its address string,
its lock state, and whether a verifiable key is known for it. -/
structure WalletAccount where
  address : String
  unlocked : Bool
  hasKnownKey : Bool
deriving DecidableEq

/-- Modelled from the spec: validator rule 1 — the sender must be unlocked,
or the transaction must carry a signature verifiable against a known key,
else `AuthenticationRequired`. -/
def authCheck (a : WalletAccount) (hasValidSignature : Bool) :
    Except ValidationError Unit :=
  if a.unlocked || hasValidSignature then .ok () else .error .authenticationRequired

/-- Modelled from the spec: unlock by address string — every account whose
address matches is marked unlocked. -/
def unlockByAddress (accounts : List WalletAccount) (addr : String) :
    List WalletAccount :=
  accounts.map (fun a => if a.address = addr then { a with unlocked := true } else a)

/-- Modelled from the spec: unlock by numeric account index. -/
def unlockByIndex : List WalletAccount → Nat → List WalletAccount
  | [], _ => []
  | a :: rest, 0 => { a with unlocked := true } :: rest
  | a :: rest, n + 1 => a :: unlockByIndex rest n

/-! ## C8: notifier ordering.

Modelled from the spec: sealing appends the block and its receipts to the
Block/Chain Store and only then hands off to the Notifier (§4.5, §4.7);
exactly one head event per sealed block, in seal order. -/

/-- A sealed block for the notifier model: its number and the transaction
hashes whose receipts it carries. -/
structure SealedBlock where
  number : Nat
  receipts : List Nat
deriving DecidableEq

/-- One observable store/notifier action. -/
inductive ChainEvent
  | appendBlock (b : SealedBlock)
  | publishHead (n : Nat)
deriving DecidableEq

/-- Modelled from the spec: the action trace produced by sealing a sequence of
blocks — each seal durably appends the block (with its receipts), then
publishes exactly one head event for it. -/
def sealTrace (blocks : List SealedBlock) : List ChainEvent :=
  blocks.flatMap (fun b => [ChainEvent.appendBlock b, ChainEvent.publishHead b.number])

/-- The Block/Chain Store contents after a trace prefix. -/
def storeOf (tr : List ChainEvent) : List SealedBlock :=
  tr.filterMap (fun s =>
    match s with
    | .appendBlock b => some b
    | .publishHead _ => none)

/-- The head events delivered along a trace, in order. -/
def headsOf (tr : List ChainEvent) : List Nat :=
  tr.filterMap (fun s =>
    match s with
    | .appendBlock _ => none
    | .publishHead n => some n)

/-! ## Theorems -/

theorem alphabet_length : alphabet.length = 62 := rfl

theorem rngIndex_lt (num : Nat) (h : num < 2 ^ 53) : rngIndex num < 62 := by
  unfold rngIndex
  rw [alphabet_length]
  rw [Nat.div_lt_iff_lt_mul (by norm_num)]
  calc num * 62 < 2 ^ 53 * 62 := mul_lt_mul_of_pos_right h (by norm_num)
    _ = 62 * 2 ^ 53 := Nat.mul_comm _ _

/-- Claim C10: in the WebSocket adapter's `initialize` message handler, an
incoming array of Buffers is silently discarded — `behavior.message` is never
invoked for it — while a string is converted `charCodeAt`-by-`charCodeAt`
into a buffer of the same length delivered with `isBinary = false`, and a
single Buffer is delivered as its underlying bytes with `isBinary = true`. -/
theorem c10_ws_message_dispatch :
    (∀ (hasHandler : Bool) (bs : List Bytes),
      onMessage hasHandler (WsMessage.bufferArray bs) = none) ∧
    (∀ codes : List Nat,
      onMessage true (WsMessage.str codes)
          = some ⟨codes.map (fun c => c % 256), false⟩ ∧
        (codes.map (fun c => c % 256)).length = codes.length) ∧
    (∀ bytes : Bytes, onMessage true (WsMessage.buffer bytes) = some ⟨bytes, true⟩) := by
  refine ⟨?_, ?_, ?_⟩
  · intro hasHandler bs
    cases hasHandler <;> rfl
  · intro codes
    exact ⟨rfl, List.length_map _ _⟩
  · intro bytes
    rfl

/-- Claim C9: when no seed is configured, the wallet seed defaults to a random
alphanumeric string: `randomAlphaNumericString 10` over the 62-character
alphabet `A–Z a–z 0–9`, so the default seed has length 10 and every one of
its characters is drawn from that alphabet (for any rng honouring the
binary64 `[0, 1)` contract). -/
theorem c9_seed_default (rng : Nat → Nat) (h : ∀ i, rng i < 2 ^ 53) :
    alphabet.length = 62 ∧ (seedDefault rng).length = 10 ∧
      ∀ c ∈ seedDefault rng, c ∈ alphabet := by
  refine ⟨rfl, by simp [seedDefault, randomAlphaNumericString], ?_⟩
  intro c hc
  simp only [seedDefault, randomAlphaNumericString, List.mem_map, List.mem_range] at hc
  obtain ⟨i, _, rfl⟩ := hc
  have hidx : rngIndex (rng i) < alphabet.length := by
    rw [alphabet_length]; exact rngIndex_lt _ (h i)
  rw [List.getD_eq_getElem alphabet 'A' hidx]
  exact List.getElem_mem hidx

/-- Witness for C9 at the constant rng `fun _ => 0`. -/
theorem c9_seed_default_witness :
    alphabet.length = 62 ∧ (seedDefault (fun _ => 0)).length = 10 ∧
      ∀ c ∈ seedDefault (fun _ => 0), c ∈ alphabet :=
  c9_seed_default (fun _ => 0) (fun _ => Nat.two_pow_pos 53)

/-- Claim C4: for each of the three transaction formats — Legacy, AccessList,
DynamicFee — a transaction whose upfront cost `gasLimit × effective price +
value` exceeds the sender's balance is rejected with the same
`InsufficientFunds` error, whose message embeds the computed upfront cost, the
sender's balance, and the active hardfork name. -/
theorem c4_insufficient_funds (t : TxType) (gl price v balance : Nat)
    (sender hf : String) (h : balance < gl * price + v) :
    checkUpfrontCost ⟨t, gl, price, price, v⟩ balance sender hf
        = .error (.insufficientFunds
            (insufficientFundsMessage (gl * price + v) balance sender hf)) ∧
      ∃ p q r s, insufficientFundsMessage (gl * price + v) balance sender hf
        = p ++ toString (gl * price + v) ++ q ++ toString balance ++ r ++ hf ++ s := by
  have heff : effectiveGasPrice ⟨t, gl, price, price, v⟩ = price := by
    cases t <;> rfl
  have hup : upfrontCost ⟨t, gl, price, price, v⟩ = gl * price + v := by
    simp [upfrontCost, heff]
  constructor
  · simp [checkUpfrontCost, hup, h]
  · exact ⟨"VM Exception while processing transaction: sender doesn't have enough funds to send tx. The upfront cost is: ",
      " and the sender's account (" ++ sender ++ ") only has: ",
      " (vm hf=", " -> block -> tx)",
      by simp [insufficientFundsMessage, String.append_assoc]⟩

/-- Witness for C4 at a Legacy transfer that an empty account cannot fund. -/
theorem c4_insufficient_funds_witness :
    checkUpfrontCost ⟨.legacy, 21000, 1, 1, 100⟩ 0 "0xabc" "london"
        = .error (.insufficientFunds
            (insufficientFundsMessage (21000 * 1 + 100) 0 "0xabc" "london")) ∧
      ∃ p q r s, insufficientFundsMessage (21000 * 1 + 100) 0 "0xabc" "london"
        = p ++ toString (21000 * 1 + 100) ++ q ++ toString 0 ++ r ++ "london" ++ s :=
  c4_insufficient_funds .legacy 21000 1 100 0 "0xabc" "london" (by decide)

/-- Claim C3: a revert whose payload carries the `Error(string)` selector but
whose remaining bytes do not decode as a valid length-prefixed string is
surfaced, without ever throwing, as code `-32000`, `reason = null`, message
exactly `"revert"`, and `result` the original raw payload as hex, byte for
byte. -/
theorem c3_malformed_revert (raw : Bytes)
    (_hsel : raw.take 4 = errorSelector)
    (hdec : decodeRevertReason raw = none) :
    (mkRevertError raw).code = -32000 ∧
      (mkRevertError raw).reason = none ∧
      (mkRevertError raw).message = "revert" ∧
      (mkRevertError raw).result = bytesToHex raw := by
  simp [mkRevertError, hdec]

/-- Witness for C3 at the test payload
`0x08c379a0ffffffffffffffffffffffffffffffffffffffffffffffffffffffffffffffc0`,
whose declared string offset lies far outside the payload. -/
theorem c3_malformed_revert_witness :
    ((mkRevertError badRevertPayload).code = -32000 ∧
      (mkRevertError badRevertPayload).reason = none ∧
      (mkRevertError badRevertPayload).message = "revert" ∧
      (mkRevertError badRevertPayload).result = bytesToHex badRevertPayload) ∧
    bytesToHex badRevertPayload
      = "0x08c379a0ffffffffffffffffffffffffffffffffffffffffffffffffffffffffffffffc0" :=
  ⟨c3_malformed_revert badRevertPayload (by decide) (by decide), by decide⟩

theorem length_flatMap_byteToHex (bs : Bytes) :
    (bs.flatMap byteToHex).length = 2 * bs.length := by
  induction bs with
  | nil => rfl
  | cons b rest ih =>
    simp only [List.flatMap_cons, List.length_append, ih, byteToHex]
    simp
    omega

theorem bytesToHex_length (bs : Bytes) :
    (bytesToHex bs).length = 2 + 2 * bs.length := by
  have h0 : (bytesToHex bs).length = ('0' :: 'x' :: bs.flatMap byteToHex).length := rfl
  rw [h0, List.length_cons, List.length_cons, length_flatMap_byteToHex]
  omega

theorem createContractAddress_length (sender : Address) (nonce : Nat) :
    (createContractAddress sender nonce).length = 20 := by
  simp [createContractAddress]

/-- Claim C2: a contract-creation transaction (recipient null) that fails with
out-of-gas still gets a receipt with status Failure, `to = null`, and a
non-null contract address of 42 hex characters (with the `0x` prefix),
computed from the sender and pre-transaction nonce — the same address the
receipt would carry under any other execution outcome, since it is fixed
before the outcome is known. -/
theorem c2_oog_creation_receipt (sender : Address) (preNonce gasLimit : Nat) :
    (buildReceipt sender preNonce none gasLimit .outOfGas).status = .failure ∧
      (buildReceipt sender preNonce none gasLimit .outOfGas).toField = none ∧
      (buildReceipt sender preNonce none gasLimit .outOfGas).contractAddress
        = some (createContractAddress sender preNonce) ∧
      (bytesToHex (createContractAddress sender preNonce)).length = 42 ∧
      ∀ outcome : Outcome,
        (buildReceipt sender preNonce none gasLimit outcome).contractAddress
          = some (createContractAddress sender preNonce) := by
  refine ⟨rfl, rfl, rfl, ?_, ?_⟩
  · rw [bytesToHex_length, createContractAddress_length]
  · intro outcome
    cases outcome <;> rfl

/-- Claim C7: with a zero gas price, crediting an (unlocked, zero-start)
address `z` with `v` raises its balance by exactly `v`, the reverse transfer
of `w` lowers it by exactly `w`, and a credit of `v` followed by a debit of
`v` returns `z`'s balance to its original value (round-trip). -/
theorem c7_round_trip (reg : Registry) (a z : Address) (v w : Nat)
    (hne : a ≠ z) :
    ((commitTx reg ⟨a, z, (reg a).nonce, v, 0⟩) z).balance
        = (reg z).balance + v ∧
      ((commitTx (commitTx reg ⟨a, z, (reg a).nonce, v, 0⟩)
          ⟨z, a, 0, w, 0⟩) z).balance
        = ((commitTx reg ⟨a, z, (reg a).nonce, v, 0⟩) z).balance - w ∧
      ((commitTx (commitTx reg ⟨a, z, (reg a).nonce, v, 0⟩)
          ⟨z, a, 0, v, 0⟩) z).balance = (reg z).balance := by
  have hzn : z ≠ a := Ne.symm hne
  refine ⟨?_, ?_, ?_⟩ <;>
    simp [commitTx, updateReg, hne, hzn]

/-- Witness for C7 at a one-byte sender, the zero address, and `v = 0x1234`,
`w = 0x123`. -/
theorem c7_round_trip_witness :
    ((commitTx (fun _ => ⟨4660, 0⟩) ⟨[1], [0], ((fun _ => (⟨4660, 0⟩ : AccountState)) [1]).nonce, 4660, 0⟩) [0]).balance
        = ((fun _ => (⟨4660, 0⟩ : AccountState)) [0]).balance + 4660 ∧
      ((commitTx (commitTx (fun _ => ⟨4660, 0⟩) ⟨[1], [0], ((fun _ => (⟨4660, 0⟩ : AccountState)) [1]).nonce, 4660, 0⟩)
          ⟨[0], [1], 0, 291, 0⟩) [0]).balance
        = ((commitTx (fun _ => ⟨4660, 0⟩) ⟨[1], [0], ((fun _ => (⟨4660, 0⟩ : AccountState)) [1]).nonce, 4660, 0⟩) [0]).balance - 291 ∧
      ((commitTx (commitTx (fun _ => ⟨4660, 0⟩) ⟨[1], [0], ((fun _ => (⟨4660, 0⟩ : AccountState)) [1]).nonce, 4660, 0⟩)
          ⟨[0], [1], 0, 4660, 0⟩) [0]).balance
        = ((fun _ => (⟨4660, 0⟩ : AccountState)) [0]).balance :=
  c7_round_trip (fun _ => ⟨4660, 0⟩) [1] [0] 4660 291 (by decide)

/-- Claim C5: a transaction accepted as executable has a nonce equal to the
sender's account nonce at acceptance time, and after the block containing it
is sealed the sender's account nonce has increased by exactly one. -/
theorem c5_nonce (reg : Registry) (tx : PoolTx)
    (hacc : acceptsExecutable reg tx = true) :
    tx.nonce = (reg tx.sender).nonce ∧
      ((sealBlockTxs reg [tx]) tx.sender).nonce = (reg tx.sender).nonce + 1 := by
  constructor
  · simpa [acceptsExecutable] using hacc
  · by_cases h : tx.sender = tx.recipient <;>
      simp [sealBlockTxs, commitTx, updateReg, h]

/-- Witness for C5 at a registry whose every account has nonce 5 and a
transaction carrying nonce 5. -/
theorem c5_nonce_witness :
    (PoolTx.mk [1] [2] 5 7 0).nonce
        = ((fun _ => (⟨100, 5⟩ : AccountState)) (PoolTx.mk [1] [2] 5 7 0).sender).nonce ∧
      ((sealBlockTxs (fun _ => ⟨100, 5⟩) [PoolTx.mk [1] [2] 5 7 0])
          (PoolTx.mk [1] [2] 5 7 0).sender).nonce
        = ((fun _ => (⟨100, 5⟩ : AccountState)) (PoolTx.mk [1] [2] 5 7 0).sender).nonce + 1 :=
  c5_nonce (fun _ => ⟨100, 5⟩) (PoolTx.mk [1] [2] 5 7 0) (by decide)

theorem unlockByIndex_getD (accounts : List WalletAccount) (i : Nat)
    (h : i < accounts.length) (d : WalletAccount) :
    ((unlockByIndex accounts i).getD i d).unlocked = true := by
  induction accounts generalizing i with
  | nil => simp at h
  | cons a rest ih =>
    cases i with
    | zero => rfl
    | succ n =>
      simp only [unlockByIndex, List.getD_cons_succ]
      exact ih n (by simpa using h)

/-- Claim C6: a submission from a locked account with no verifiable signature
fails with the authentication error; unlocking an account by its address
string, or by its numeric index, leaves that account unlocked, so a
subsequent send from it passes the authentication check. -/
theorem c6_authentication :
    (∀ a : WalletAccount, a.unlocked = false →
        authCheck a false = .error .authenticationRequired) ∧
      (∀ (accounts : List WalletAccount) (addr : String) (b : WalletAccount),
        b ∈ unlockByAddress accounts addr → b.address = addr →
        authCheck b false = .ok ()) ∧
      (∀ (accounts : List WalletAccount) (i : Nat), i < accounts.length →
        authCheck ((unlockByIndex accounts i).getD i ⟨"", false, false⟩) false
          = .ok ()) := by
  refine ⟨?_, ?_, ?_⟩
  · intro a h
    simp [authCheck, h]
  · intro accounts addr b hb haddr
    simp only [unlockByAddress, List.mem_map] at hb
    obtain ⟨c, _, rfl⟩ := hb
    by_cases hc : c.address = addr
    · simp [authCheck, hc]
    · rw [if_neg hc] at haddr ⊢
      exact absurd haddr hc
  · intro accounts i h
    simp only [authCheck, unlockByIndex_getD accounts i h, Bool.true_or]
    rfl

/-- Witness for C6 on a concrete three-account wallet: a locked account is
rejected, account 0 unlocked by address string passes, account 1 unlocked by
index passes. -/
theorem c6_authentication_witness :
    authCheck ⟨"0xc", false, false⟩ false = .error .authenticationRequired ∧
      authCheck (⟨"0xa", true, false⟩ : WalletAccount) false = .ok () ∧
      authCheck
        ((unlockByIndex [⟨"0xa", false, false⟩, ⟨"0xb", false, false⟩, ⟨"0xc", false, false⟩] 1).getD
          1 ⟨"", false, false⟩) false = .ok () :=
  ⟨c6_authentication.1 ⟨"0xc", false, false⟩ rfl,
    c6_authentication.2.1 [⟨"0xa", false, false⟩, ⟨"0xb", false, false⟩] "0xa"
      ⟨"0xa", true, false⟩ (by decide) rfl,
    c6_authentication.2.2 [⟨"0xa", false, false⟩, ⟨"0xb", false, false⟩, ⟨"0xc", false, false⟩]
      1 (by decide)⟩

theorem probeSucceeds_iff (m : ExecModel) (g : Nat) :
    probeSucceeds m g = true ↔ m.required ≤ g := by
  simp [probeSucceeds]

theorem estimateSearch_eq (m : ExecModel) (lo hi : Nat) (hle : lo ≤ hi)
    (hreq : m.required ≤ hi) :
    estimateSearch m lo hi = max lo m.required := by
  have H : ∀ (n lo hi : Nat), hi - lo ≤ n → lo ≤ hi → m.required ≤ hi →
      estimateSearch m lo hi = max lo m.required := by
    intro n
    induction n with
    | zero =>
      intro lo hi h1 h2 h3
      have heq : hi ≤ lo := by omega
      rw [estimateSearch, dif_pos heq]
      have : m.required ≤ lo := by omega
      omega
    | succ n ih =>
      intro lo hi h1 h2 h3
      rw [estimateSearch]
      by_cases hlo : hi ≤ lo
      · rw [dif_pos hlo]
        have : m.required ≤ lo := by omega
        omega
      · rw [dif_neg hlo]
        have hlt : lo < hi := by omega
        by_cases hp : probeSucceeds m ((lo + hi) / 2) = true
        · have hple : m.required ≤ (lo + hi) / 2 := (probeSucceeds_iff m _).mp hp
          rw [if_pos hp]
          exact ih lo ((lo + hi) / 2) (by omega) (by omega) hple
        · have hpgt : (lo + hi) / 2 < m.required := by
            have hnle := mt (probeSucceeds_iff m ((lo + hi) / 2)).mpr hp
            omega
          rw [if_neg hp]
          rw [ih ((lo + hi) / 2 + 1) hi (by omega) (by omega) h3]
          omega
  exact H (hi - lo) lo hi le_rfl hle hreq

/-- Claim C1: when the required gas lies within the search range, the
estimator returns exactly it: running the transaction with
`gasLimit = estimate` succeeds with Success status and the receipt's gas used
equals the estimate; any strictly smaller gas limit fails, so the estimate is
minimal; and in `defaultTransactionGasLimit = "estimate"` mode a transaction
without an explicit gas field is assigned exactly the estimator's value. -/
theorem c1_estimate (m : ExecModel) (intrinsic blockLimit : Nat)
    (h1 : intrinsic ≤ m.required) (h2 : m.required ≤ blockLimit) :
    estimate m intrinsic blockLimit = some m.required ∧
      execTx m m.required = ⟨.success, m.required⟩ ∧
      (∀ g, g < m.required → (execTx m g).status = .failure) ∧
      assignGasLimit .estimateMode m intrinsic blockLimit none
        = estimate m intrinsic blockLimit := by
  have hest : estimate m intrinsic blockLimit = some m.required := by
    rw [estimate, if_pos ((probeSucceeds_iff m blockLimit).mpr h2)]
    rw [estimateSearch_eq m intrinsic blockLimit (le_trans h1 h2) h2]
    congr 1
    omega
  refine ⟨hest, ?_, ?_, rfl⟩
  · rw [execTx, if_pos le_rfl]
  · intro g hg
    rw [execTx, if_neg (by omega)]

/-- Witness for C1 at a simple transfer requiring 21000 gas against a
30,000,000 block gas limit. -/
theorem c1_estimate_witness :
    estimate ⟨21000⟩ 21000 30000000 = some 21000 ∧
      execTx ⟨21000⟩ 21000 = ⟨.success, 21000⟩ ∧
      (∀ g, g < 21000 → (execTx ⟨21000⟩ g).status = .failure) ∧
      assignGasLimit .estimateMode ⟨21000⟩ 21000 30000000 none
        = estimate ⟨21000⟩ 21000 30000000 :=
  c1_estimate ⟨21000⟩ 21000 30000000 (by decide) (by decide)

theorem sealTrace_cons (b : SealedBlock) (bs : List SealedBlock) :
    sealTrace (b :: bs)
      = ChainEvent.appendBlock b :: ChainEvent.publishHead b.number :: sealTrace bs := by
  simp [sealTrace]

theorem headsOf_sealTrace (blocks : List SealedBlock) :
    headsOf (sealTrace blocks) = blocks.map SealedBlock.number := by
  induction blocks with
  | nil => rfl
  | cons b bs ih =>
    rw [sealTrace_cons]
    simpa [headsOf] using ih

theorem storeOf_append_singleton (pre2 : List ChainEvent) (b : SealedBlock) :
    storeOf (pre2 ++ [ChainEvent.appendBlock b]) = storeOf pre2 ++ [b] := by
  simp [storeOf]

theorem sealTrace_publish_after_append (blocks : List SealedBlock) :
    ∀ pre n post, sealTrace blocks = pre ++ ChainEvent.publishHead n :: post →
      ∃ b pre2, b.number = n ∧ pre = pre2 ++ [ChainEvent.appendBlock b] ∧
        b ∈ storeOf pre := by
  induction blocks with
  | nil =>
    intro pre n post h
    exact absurd h.symm (by simp [sealTrace])
  | cons b bs ih =>
    intro pre n post h
    rw [sealTrace_cons] at h
    match pre, h with
    | [], h =>
      simp only [List.nil_append, List.cons.injEq] at h
      exact absurd h.1 (by simp)
    | [e], h =>
      simp only [List.cons_append, List.nil_append, List.cons.injEq] at h
      obtain ⟨he, hn, -⟩ := h
      have hnum : b.number = n := by injection hn
      refine ⟨b, [], hnum, ?_, ?_⟩
      · rw [← he]; rfl
      · rw [← he]; simp [storeOf]
    | e1 :: e2 :: pre', h =>
      simp only [List.cons_append, List.cons.injEq] at h
      obtain ⟨he1, he2, hrest⟩ := h
      obtain ⟨b', pre2, hb', hpre', hmem⟩ := ih pre' n post hrest
      refine ⟨b', e1 :: e2 :: pre2, hb', by rw [hpre']; rfl, ?_⟩
      rw [← he1, ← he2]
      simp only [storeOf, List.filterMap_cons]
      simp only [storeOf] at hmem
      simp [hmem]

/-- Claim C8: the notifier trace produced by sealing blocks delivers exactly
one head event per sealed block, in seal order (`headsOf` is exactly the
sealed block numbers), and every head event occurs strictly after the block
and its receipts are appended to the store: any trace split at a head event
has the matching block as the last store append of the prefix, so the
receipts of that block are already queryable. -/
theorem c8_notifier :
    (∀ blocks : List SealedBlock,
        headsOf (sealTrace blocks) = blocks.map SealedBlock.number) ∧
      ∀ (blocks : List SealedBlock) (pre : List ChainEvent) (n : Nat)
          (post : List ChainEvent),
        sealTrace blocks = pre ++ ChainEvent.publishHead n :: post →
        ∃ b pre2, b.number = n ∧ pre = pre2 ++ [ChainEvent.appendBlock b] ∧
          b ∈ storeOf pre :=
  ⟨headsOf_sealTrace, fun blocks => sealTrace_publish_after_append blocks⟩

/-- Witness for C8 at a one-block chain carrying one receipt. -/
theorem c8_notifier_witness :
    headsOf (sealTrace [⟨1, [7]⟩])
        = ([⟨1, [7]⟩] : List SealedBlock).map SealedBlock.number ∧
      ∃ b pre2, b.number = 1 ∧
        [ChainEvent.appendBlock ⟨1, [7]⟩] = pre2 ++ [ChainEvent.appendBlock b] ∧
        b ∈ storeOf [ChainEvent.appendBlock ⟨1, [7]⟩] :=
  ⟨c8_notifier.1 [⟨1, [7]⟩],
    c8_notifier.2 [⟨1, [7]⟩] [ChainEvent.appendBlock ⟨1, [7]⟩] 1 [] rfl⟩

end Ganache
